import Mathlib

/-!
Shallow embedding of the `web3scanner` repository, covering:

* `common/retry` — the generic retry executor `Do` / `Do2` and the
  `ErrFailedPermanently` error (source: the `retry` package).
* `database/utils/serializers/bytes.go` — the `BytesSerializer` codec
  (`Scan` / `Value`) together with the fragment of Go `reflect` and
  `hexutil` semantics it exercises.
* `database` — the address store (`AddressExist`, `QueryHotWalletInfo`,
  `QueryColdWalletInfo`), `NewDB` and `ExecuteSQLMigration`.

Go machine integers are modelled as `Nat`/`Int`; byte slices as `List Nat`
(with explicit `< 256` in-range hypotheses where it matters); Go strings as
`List Char`; fallible calls as `Except`/`Option`.  Side effects that the
claims talk about (operation invocations, sleeps, executed SQL scripts) are
made explicit as traces returned alongside the result.
-/

namespace Retry

/-- The `ErrFailedPermanently` struct of the retry package: it records the
attempt count and the last underlying error.  `LastErr` is an `Option`
because a Go `error` field may be nil. -/
structure ErrFailedPermanently (E : Type) where
  attempts : Int
  LastErr : Option E
deriving DecidableEq, Repr

/-- `(*ErrFailedPermanently).Unwrap` returns the stored `LastErr`. -/
def ErrFailedPermanently.Unwrap {E : Type} (e : ErrFailedPermanently E) : Option E :=
  e.LastErr

/-- Observable outcome of `retry.Do`: the success value, the supplied
context's error, the `maxAttempts < 1` configuration error (which embeds the
offending value in its message), or an `ErrFailedPermanently`. -/
inductive RetryResult (T E : Type) where
  | ok (v : T)
  | ctxErr (e : E)
  | configErr (maxAttempts : Int)
  | failedPermanently (e : ErrFailedPermanently E)
deriving DecidableEq, Repr

/-- A run of `retry.Do` observed together with its side effects: how many
times the operation was invoked and the list of sleep durations (one entry
per `time.Sleep(strategy.Duration(i))` call, in order). -/
structure DoTrace (T E : Type) where
  result : RetryResult T E
  opCalls : Nat
  sleeps : List Nat
deriving DecidableEq, Repr

/-- The `for i := 0; i < maxAttempts; i++` loop body of `retry.Do`.

The context is modelled as `ctx : Nat → Option E`, giving the value of
`ctx.Err()` at the check preceding attempt `i`; the operation as
`op : Nat → Except E T`, giving the outcome of its `i`-th invocation; the
strategy as `strategy : Nat → Nat` (`strategy.Duration(i)`).  `fuel` is the
number of loop iterations still allowed, i.e. `maxAttempts - i`; when it
reaches `0` the loop falls through to the final
`return empty, &ErrFailedPermanently{...}` with `err` still nil (that exit is
reachable only for `maxAttempts = 0`, which `Do` rules out). -/
def doLoop {T E : Type} (ctx : Nat → Option E) (strategy : Nat → Nat)
    (op : Nat → Except E T) (maxAttempts : Nat) :
    Nat → Nat → RetryResult T E × Nat × List Nat
  | _, 0 => (.failedPermanently ⟨(maxAttempts : Int), none⟩, 0, [])
  | i, fuel + 1 =>
    match ctx i with
    | some e => (.ctxErr e, 0, [])
    | none =>
      match op i with
      | .ok v => (.ok v, 1, [])
      | .error e =>
        if i = maxAttempts - 1 then
          (.failedPermanently ⟨(maxAttempts : Int), some e⟩, 1, [])
        else
          let r := doLoop ctx strategy op maxAttempts (i + 1) fuel
          (r.1, r.2.1 + 1, strategy i :: r.2.2)

/-- `retry.Do`: reject `maxAttempts < 1` with a configuration error, then run
the attempt loop starting at index 0. -/
def Do {T E : Type} (ctx : Nat → Option E) (maxAttempts : Int) (strategy : Nat → Nat)
    (op : Nat → Except E T) : DoTrace T E :=
  if maxAttempts < 1 then
    ⟨.configErr maxAttempts, 0, []⟩
  else
    let r := doLoop ctx strategy op maxAttempts.toNat 0 maxAttempts.toNat
    ⟨r.1, r.2.1, r.2.2⟩

/-- The private `pair[T, U]` struct used by `Do2` to bundle two results. -/
structure pair (T U : Type) where
  a : T
  b : U
deriving DecidableEq, Repr

/-- `retry.Do2`: wraps a two-result operation into a `pair`-returning one and
delegates to `Do`. -/
def Do2 {T U E : Type} (ctx : Nat → Option E) (maxAttempts : Int) (strategy : Nat → Nat)
    (op : Nat → Except E (T × U)) : DoTrace (pair T U) E :=
  Do ctx maxAttempts strategy (fun i => (op i).map (fun ab => ⟨ab.1, ab.2⟩))

/-- Sleep durations produced by attempts `j, j+1, ..., j+k-1`. -/
def sleepsFrom (strategy : Nat → Nat) (j k : Nat) : List Nat :=
  (List.range k).map (fun d => strategy (j + d))

end Retry

namespace DBConn

/-- Modelled from the spec: `retry.ExponentialStrategy`
(`common/retry/strategies.go` is not among the sources here; only its use in
`database.NewDB` is).  Per §4.1 of the spec the wait is
`min(max, min_base * 2^attemptIndex) + randomJitter(0, maxJitter)`; the
random jitter is abstracted as a function `jitter`, clamped to `maxJitter`. -/
def ExponentialStrategyDuration (minBase maxCeil maxJitter : Nat)
    (jitter : Nat → Nat) (i : Nat) : Nat :=
  min maxCeil (minBase * 2 ^ i) + min (jitter i) maxJitter

/-- The connection-establishment retry performed by `database.NewDB`.

The caller's context `_ctx` is a parameter of `NewDB` in the source but is
not the context given to the retry executor: the source calls
`retry.Do(context.Background(), 10, retryStrategy, ...)` with
`retryStrategy := &retry.ExponentialStrategy{Min: 1000, Max: 20_000,
MaxJitter: 250}`, and a background context never reports an error, so the
context seen by `retry.Do` is embedded as `fun _ => none`.  `openOp i` is
the outcome of the `i`-th `gorm.Open(postgres.Open(dsn), &gormConfig)` call
(wrapped in `fmt.Errorf` on failure); the assembly of the `DB` struct from a
successful handle does not affect the retry behaviour. -/
def NewDB {G E : Type} (_ctx : Nat → Option E) (jitter : Nat → Nat)
    (openOp : Nat → Except E G) : Retry.DoTrace G E :=
  Retry.Do (fun _ => none) 10
    (ExponentialStrategyDuration 1000 20000 250 jitter) openOp

end DBConn

namespace Serializers

/-- The sixteen lower-case hex digits, as `encoding/hex` emits them. -/
def hexDigits : List Char := "0123456789abcdef".toList

/-- Lower-case hex digit of a nibble. -/
def hexDigitLower (d : Nat) : Char := hexDigits.getD d '?'

/-- Two-digit lower-case hex rendering of one byte. -/
def byteToHex (b : Nat) : List Char := [hexDigitLower (b / 16), hexDigitLower (b % 16)]

/-- `hexutil.Encode`: `"0x"` followed by two lower-case hex digits per byte. -/
def hexutilEncode (bs : List Nat) : List Char :=
  '0' :: 'x' :: (bs.map byteToHex).flatten

/-- Errors of `hexutil.Decode` as they are distinguished by go-ethereum:
empty input, missing `0x` prefix, odd digit count, invalid digit. -/
inductive HexError where
  | emptyInput
  | missing0x
  | oddLen
  | badByte
deriving DecidableEq, Repr

/-- Value of one hex digit, accepting both cases (as `encoding/hex` does). -/
def hexVal (c : Char) : Option Nat :=
  if '0' ≤ c ∧ c ≤ '9' then some (c.toNat - '0'.toNat)
  else if 'a' ≤ c ∧ c ≤ 'f' then some (c.toNat - 'a'.toNat + 10)
  else if 'A' ≤ c ∧ c ≤ 'F' then some (c.toNat - 'A'.toNat + 10)
  else none

/-- `hex.DecodeString` on the digits after the prefix: consume digit pairs;
a lone trailing digit is an odd-length error unless it is itself invalid, in
which case the invalid digit is reported (mirroring `encoding/hex.Decode`). -/
def decodeHexPairs : List Char → Except HexError (List Nat)
  | [] => Except.ok []
  | [c] => if (hexVal c).isSome then Except.error HexError.oddLen
           else Except.error HexError.badByte
  | c1 :: c2 :: rest =>
    match hexVal c1, hexVal c2 with
    | some hi, some lo => (decodeHexPairs rest).map (fun bs => (hi * 16 + lo) :: bs)
    | _, _ => Except.error HexError.badByte

/-- `hexutil.Decode`: reject empty input, require a `0x`/`0X` prefix, then
decode the digit pairs. -/
def hexutilDecode : List Char → Except HexError (List Nat)
  | [] => Except.error HexError.emptyInput
  | '0' :: 'x' :: rest => decodeHexPairs rest
  | '0' :: 'X' :: rest => decodeHexPairs rest
  | _ => Except.error HexError.missing0x

/-- A Go type as the serializer inspects it: a named (non-pointer) type or a
pointer type. -/
inductive GoType where
  | named (n : String)
  | ptr (t : GoType)
deriving DecidableEq, Repr

/-- The fragment of `reflect.Kind` the serializer distinguishes. -/
inductive Kind where
  | pointerK
  | otherK
  | invalidK
deriving DecidableEq, Repr

/-- `reflect.Type.Kind` on the modelled types. -/
def GoType.kind : GoType → Kind
  | .ptr _ => Kind.pointerK
  | .named _ => Kind.otherK

/-- Whether the zero value of a type is a nil pointer. -/
def zeroIsNil : GoType → Bool
  | .ptr _ => true
  | .named _ => false

/-- A `reflect.Value` as `Scan` manipulates it: the invalid zero `Value`, or
a value of some type together with (for pointer types) whether it is nil. -/
inductive RVal where
  | invalid
  | val (ty : GoType) (isNil : Bool)
deriving DecidableEq, Repr

/-- `reflect.New t`: a non-nil `*t` pointing at the zero value of `t`. -/
def reflectNew (t : GoType) : RVal := RVal.val (GoType.ptr t) false

/-- `reflect.Value.Kind`: the invalid `Value` has kind `Invalid`. -/
def RVal.kind : RVal → Kind
  | .invalid => Kind.invalidK
  | .val t _ => t.kind

/-- `reflect.Value.Elem` on a pointer `Value`: the zero `Value` when the
pointer is nil (per the `reflect` package), otherwise the pointee — which,
for a pointee freshly allocated by `reflect.New`, is the zero value of the
element type (nil again exactly when that type is a pointer type). -/
def RVal.elem : RVal → RVal
  | .val (GoType.ptr e) false => RVal.val e (zeroIsNil e)
  | _ => RVal.invalid

/-- Capabilities of the named types in play: whether the pointer type `*u`
has `SetBytes([]byte)` in its method set, whether values of `u` (and hence
`*u`; `Bytes` has a value receiver on the types concerned) implement
`Bytes() []byte`, and the semantics of `SetBytes`: the `Bytes()` content of
a freshly zeroed `u` after `SetBytes(b)`. -/
structure TypeEnv where
  ptrHasSetBytes : String → Bool
  hasBytes : String → Bool
  setBytesResult : String → List Nat → List Nat

/-- The stored database value handed to `Scan` when it is not nil: a string,
or a value of some other type (whose name `%T` would print). -/
inductive DBValue where
  | str (s : List Char)
  | nonString (tyName : String)
deriving DecidableEq, Repr

/-- A field value, as produced by `Scan` or consumed by `Value`: a value of
a named type with its byte content, a non-nil pointer to one, a nil pointer,
or an absent (`nil` interface) value. -/
inductive FVal where
  | baseV (u : String) (content : List Nat)
  | ptrV (u : String) (content : List Nat)
  | nilP
  | absent
deriving DecidableEq, Repr

/-- The errors `BytesSerializer.Scan` can return, one per `fmt.Errorf` site:
non-string stored value (naming the unexpected type), hex-decode failure
(wrapping the `hexutil` error), the "double pointers are the max depth
supported" error, and the missing `SetBytes([]byte)` capability error. -/
inductive ScanError where
  | typeMismatch (tyName : String)
  | decodeFail (e : HexError)
  | doublePointer
  | noSetBytes
deriving DecidableEq, Repr

/-- `BytesSerializer.Scan` (database/utils/serializers/bytes.go:48-88).

`none` as the result means the destination field is left untouched (the
`dbValue == nil` early return).  The reflection steps are translated
verbatim: `fieldValue := reflect.New(field.FieldType)`; when the field type
is a pointer, `nestedField := fieldValue.Elem()` and the guard compares
`nestedField.Elem().Kind()` with `reflect.Pointer`, then
`nestedField.Set(reflect.New(field.FieldType.Elem()))` makes the interface
used for the `SetBytes` assertion have dynamic type `field.FieldType`
itself; otherwise that interface has dynamic type `*field.FieldType`.  A
pointer-to-pointer dynamic type has an empty method set in Go, so it never
satisfies `SetBytesInterface`. -/
def Scan (env : TypeEnv) (fieldType : GoType) (dbValue : Option DBValue) :
    Except ScanError (Option FVal) :=
  match dbValue with
  | none => Except.ok none
  | some (DBValue.nonString t) => Except.error (ScanError.typeMismatch t)
  | some (DBValue.str s) =>
    match hexutilDecode s with
    | Except.error e => Except.error (ScanError.decodeFail e)
    | Except.ok b =>
      let fieldValue := reflectNew fieldType
      if fieldType.kind = Kind.pointerK then
        let nestedField := fieldValue.elem
        if nestedField.elem.kind = Kind.pointerK then
          Except.error ScanError.doublePointer
        else
          match fieldType with
          | GoType.ptr (GoType.named u) =>
            if env.ptrHasSetBytes u then
              Except.ok (some (FVal.ptrV u (env.setBytesResult u b)))
            else Except.error ScanError.noSetBytes
          | _ => Except.error ScanError.noSetBytes
      else
        match fieldType with
        | GoType.named u =>
          if env.ptrHasSetBytes u then
            Except.ok (some (FVal.baseV u (env.setBytesResult u b)))
          else Except.error ScanError.noSetBytes
        | _ => Except.error ScanError.noSetBytes

/-- The single error `BytesSerializer.Value` can return: the field value
does not satisfy the `Bytes() []byte` interface. -/
inductive ValueError where
  | noBytes
deriving DecidableEq, Repr

/-- `BytesSerializer.Value` (database/utils/serializers/bytes.go:90-102).

A nil interface value, or a nil pointer in a pointer-typed field, encodes to
an absent (`nil`) storage value with no error; otherwise the value must
expose `Bytes() []byte` and is stored as `hexutil.Encode` of those bytes.
(The `nilP`/non-pointer combination cannot arise for a well-typed field; it
is mapped to the capability error.) -/
def Value (env : TypeEnv) (fieldType : GoType) (fieldValue : FVal) :
    Except ValueError (Option (List Char)) :=
  match fieldValue with
  | FVal.absent => Except.ok none
  | FVal.nilP =>
    if fieldType.kind = Kind.pointerK then Except.ok none
    else Except.error ValueError.noBytes
  | FVal.baseV u c =>
    if env.hasBytes u then Except.ok (some (hexutilEncode c))
    else Except.error ValueError.noBytes
  | FVal.ptrV u c =>
    if env.hasBytes u then Except.ok (some (hexutilEncode c))
    else Except.error ValueError.noBytes

/-- `common.Address.SetBytes` from go-ethereum: crop from the left when
longer than 20 bytes, else left-pad the (zeroed) array. -/
def addressSetBytes (b : List Nat) : List Nat :=
  let c := if 20 < b.length then b.drop (b.length - 20) else b
  List.replicate (20 - c.length) 0 ++ c

/-- The capability environment containing `common.Address`: `*Address` has
`SetBytes`, `Address` has `Bytes()`, and `SetBytes` behaves as in
go-ethereum. -/
def addressEnv : TypeEnv where
  ptrHasSetBytes := fun u => u == "common.Address"
  hasBytes := fun u => u == "common.Address"
  setBytesResult := fun u b => if u == "common.Address" then addressSetBytes b else b

/-- The 20 bytes of the address `0x0fa09c3a328792253f8dee7116848723b72a6d2e`
used by the scanner's `Start`. -/
def addrBytes20 : List Nat :=
  [15, 160, 156, 58, 50, 135, 146, 37, 63, 141, 238, 113,
   22, 132, 135, 35, 183, 42, 109, 46]

end Serializers

namespace DBStore

/-- One row of the `addresses` table as the store reads it: `address` holds
the stored textual (hex) form of the address column. -/
structure AddressRow where
  guid : String
  address : List Char
  addressType : Nat
  publicKey : String
  timestamp : Nat
deriving DecidableEq, Repr

/-- Errors surfaced by a gorm query: the distinguished
`gorm.ErrRecordNotFound`, or any other storage failure (abstracted by a
code). -/
inductive GormErr where
  | recordNotFound
  | otherErr (code : Nat)
deriving DecidableEq, Repr

/-- The gorm connection as the address store observes it: a reachable table
(rows in primary-key order) or a connection whose queries fail with a fixed
error. -/
inductive Gorm where
  | healthy (rows : List AddressRow)
  | failing (e : GormErr)
deriving DecidableEq, Repr

/-- `Take` with a where-condition (`LIMIT 1`): the first matching row of the
table in its stored order, else `gorm.ErrRecordNotFound`; on a failing
connection, that connection's error. -/
def Gorm.take (g : Gorm) (cond : AddressRow → Bool) : Except GormErr AddressRow :=
  match g with
  | Gorm.healthy rows =>
    match rows.find? cond with
    | some r => Except.ok r
    | none => Except.error GormErr.recordNotFound
  | Gorm.failing e => Except.error e

/-- `First` with a where-condition: like `Take` but ordered by primary key;
the model keeps rows in primary-key order, so it is the same first match. -/
def Gorm.first (g : Gorm) (cond : AddressRow → Bool) : Except GormErr AddressRow :=
  match g with
  | Gorm.healthy rows =>
    match rows.find? cond with
    | some r => Except.ok r
    | none => Except.error GormErr.recordNotFound
  | Gorm.failing e => Except.error e

/-- `addressesDB.QueryHotWalletInfo`: `Take` on `address_type = 1`;
not-found becomes `(nil, nil)` (modelled `ok none`), other errors are
returned, a row becomes `(&entry, nil)`. -/
def QueryHotWalletInfo (g : Gorm) : Except GormErr (Option AddressRow) :=
  match g.take (fun r => r.addressType == 1) with
  | Except.error GormErr.recordNotFound => Except.ok none
  | Except.error e => Except.error e
  | Except.ok r => Except.ok (some r)

/-- `addressesDB.QueryColdWalletInfo`: same as the hot-wallet query with
`address_type = 2`. -/
def QueryColdWalletInfo (g : Gorm) : Except GormErr (Option AddressRow) :=
  match g.take (fun r => r.addressType == 2) with
  | Except.error GormErr.recordNotFound => Except.ok none
  | Except.error e => Except.error e
  | Except.ok r => Except.ok (some r)

/-- `strings.ToLower` restricted to ASCII (the only characters in play). -/
def asciiToLower (c : Char) : Char :=
  if 'A' ≤ c ∧ c ≤ 'Z' then Char.ofNat (c.toNat + 32) else c

/-- `strings.ToLower` over a Go string. -/
def goToLower (s : List Char) : List Char := s.map asciiToLower

/-- The sixteen upper-case hex digits. -/
def hexDigitsUpper : List Char := "0123456789ABCDEF".toList

/-- Hex digit of a nibble in the chosen case. -/
def hexDigitCase (upper : Bool) (d : Nat) : Char :=
  if upper then hexDigitsUpper.getD d '?' else Serializers.hexDigitLower d

/-- The nibble sequence of a byte string, high nibble first. -/
def toNibbles (bytes : List Nat) : List Nat :=
  (bytes.map (fun b => [b / 16, b % 16])).flatten

/-- Checksum-cased digits: digit `i` of the address is rendered upper- or
lower-case according to `mask i`. -/
def checksumChars (mask : Nat → Bool) : Nat → List Nat → List Char
  | _, [] => []
  | i, d :: ds => hexDigitCase (mask i) d :: checksumChars mask (i + 1) ds

/-- `common.Address.String()` from go-ethereum: the EIP-55 checksummed
`0x`-prefixed hex rendering of the 20 address bytes.  The per-digit case
choice is derived from a Keccak hash of the lower-case hex; it is abstracted
here as the mask `mask`. -/
def addressString (mask : Nat → Bool) (bytes : List Nat) : List Char :=
  '0' :: 'x' :: checksumChars mask 0 (toNibbles bytes)

/-- The canonical all-lower-case textual form of an address. -/
def lowerKey (bytes : List Nat) : List Char :=
  '0' :: 'x' :: (toNibbles bytes).map Serializers.hexDigitLower

/-- `addressesDB.AddressExist`: look up
`strings.ToLower(address.String())` with `First`; both the not-found case
and any other query error collapse to `(false, 0)` (the source has two
separate returns with the same value); a match returns `(true,
entry.AddressType)`. -/
def AddressExist (g : Gorm) (mask : Nat → Bool) (addr : List Nat) : Bool × Nat :=
  match g.first (fun r => r.address == goToLower (addressString mask addr)) with
  | Except.error GormErr.recordNotFound => (false, 0)
  | Except.error _ => (false, 0)
  | Except.ok r => (true, r.addressType)

end DBStore

namespace Migrate

/-- A file-system tree entry: a regular file with its content, or a
directory with its children (listed in the lexical order in which
`filepath.Walk` enumerates them).  Names and contents are Go strings. -/
inductive FSEntry where
  | file (name : List Char) (content : List Char)
  | dir (name : List Char) (kids : List FSEntry)

/-- One `walkFn` invocation: the visited entry's path relative to the
migrations folder (as segments) and, for a regular file, its content. -/
inductive Visit where
  | vdir (rel : List (List Char))
  | vfile (rel : List (List Char)) (content : List Char)
deriving DecidableEq, Repr

mutual

/-- The `filepath.Walk` visit sequence of one entry. -/
def walkEntry (rel : List (List Char)) : FSEntry → List Visit
  | FSEntry.file n c => [Visit.vfile (rel ++ [n]) c]
  | FSEntry.dir n kids => Visit.vdir (rel ++ [n]) :: walkList (rel ++ [n]) kids

/-- The `filepath.Walk` visit sequence of a list of sibling entries. -/
def walkList (rel : List (List Char)) : List FSEntry → List Visit
  | [] => []
  | e :: es => walkEntry rel e ++ walkList rel es

end

/-- Join path segments with `/`, as `filepath.Rel` renders the relative
path (segments themselves contain no separator). -/
def joinPath : List (List Char) → List Char
  | [] => []
  | [s] => s
  | s :: rest => s ++ '/' :: joinPath rest

/-- `strings.Contains(s, "..")`. -/
def hasDotDot : List Char → Bool
  | [] => false
  | '.' :: '.' :: _ => true
  | _ :: rest => hasDotDot rest

/-- The error outcomes of `ExecuteSQLMigration`: the "invalid migration
file path" rejection, or a wrapped SQL-execution failure. -/
inductive MigErr where
  | invalidPath
  | execFail (code : Nat)
deriving DecidableEq, Repr

/-- The `walkFn` closure of `DB.ExecuteSQLMigration`, iterated over the
visit sequence: directories are skipped; a file whose relative path
contains `..` is rejected (before its content is read or executed); an
execution failure (`exec content = some code`) is wrapped and aborts; the
first error stops the walk.  The second component is the trace of executed
script contents, in order. -/
def runVisits (exec : List Char → Option Nat) :
    List Visit → Option MigErr × List (List Char)
  | [] => (none, [])
  | Visit.vdir _ :: rest => runVisits exec rest
  | Visit.vfile rel content :: rest =>
    if hasDotDot (joinPath rel) then (some MigErr.invalidPath, [])
    else
      match exec content with
      | some code => (some (MigErr.execFail code), [])
      | none =>
        let r := runVisits exec rest
        (r.1, content :: r.2)

/-- `DB.ExecuteSQLMigration` on a migrations folder whose children are
`kids`: `filepath.Walk` visits the root directory itself first (skipped as
a directory), then every entry beneath it. -/
def ExecuteSQLMigration (exec : List Char → Option Nat) (kids : List FSEntry) :
    Option MigErr × List (List Char) :=
  runVisits exec (Visit.vdir [] :: walkList [] kids)

/-- The contents of the regular-file visits of a visit sequence, in order. -/
def fileContents (vs : List Visit) : List (List Char) :=
  vs.filterMap (fun v => match v with
    | Visit.vfile _ c => some c
    | Visit.vdir _ => none)

/-- A visit that neither trips the traversal guard nor fails execution. -/
def goodVisit (exec : List Char → Option Nat) : Visit → Bool
  | Visit.vfile rel c => !hasDotDot (joinPath rel) && (exec c == none)
  | Visit.vdir _ => true

end Migrate

namespace Retry

theorem sleepsFrom_succ (strategy : Nat → Nat) (j k : Nat) :
    sleepsFrom strategy j (k + 1) = strategy j :: sleepsFrom strategy (j + 1) k := by
  unfold sleepsFrom
  rw [List.range_succ_eq_map, List.map_cons, List.map_map]
  refine congrArg₂ _ (by simp) (List.map_congr_left fun d _ => ?_)
  simp only [Function.comp]
  exact congrArg strategy (by omega)

theorem doLoop_ok {T E : Type} (ctx : Nat → Option E) (strategy : Nat → Nat)
    (op : Nat → Except E T) (n : Nat) (v : T) :
    ∀ (k j fuel : Nat), k < fuel → j + k < n →
      (∀ i, ctx i = none) →
      (∀ i, j ≤ i → i < j + k → ∃ e, op i = Except.error e) →
      op (j + k) = Except.ok v →
      doLoop ctx strategy op n j fuel = (.ok v, k + 1, sleepsFrom strategy j k) := by
  intro k
  induction k with
  | zero =>
    intro j fuel hfuel _ hctx _ hok
    obtain ⟨f, rfl⟩ : ∃ f, fuel = f + 1 := ⟨fuel - 1, by omega⟩
    simp only [doLoop, hctx j]
    simp only [Nat.add_zero] at hok
    simp [hok, sleepsFrom]
  | succ k ih =>
    intro j fuel hfuel hlt hctx hfail hok
    obtain ⟨f, rfl⟩ : ∃ f, fuel = f + 1 := ⟨fuel - 1, by omega⟩
    obtain ⟨e, he⟩ := hfail j (Nat.le_refl j) (by omega)
    have hne : ¬(j = n - 1) := by omega
    simp only [doLoop, hctx j, he, if_neg hne]
    have hok' : op (j + 1 + k) = Except.ok v := by
      rw [show j + 1 + k = j + (k + 1) from by omega]; exact hok
    rw [ih (j + 1) f (by omega) (by omega) hctx
      (fun i h1 h2 => hfail i (by omega) (by omega)) hok']
    simp [sleepsFrom_succ]

theorem doLoop_allFail {T E : Type} (ctx : Nat → Option E) (strategy : Nat → Nat)
    (op : Nat → Except E T) (n : Nat) (errs : Nat → E) :
    ∀ (k j fuel : Nat), k < fuel → j + k = n - 1 →
      (∀ i, ctx i = none) →
      (∀ i, j ≤ i → i ≤ j + k → op i = Except.error (errs i)) →
      doLoop ctx strategy op n j fuel =
        (.failedPermanently ⟨(n : Int), some (errs (n - 1))⟩, k + 1,
          sleepsFrom strategy j k) := by
  intro k
  induction k with
  | zero =>
    intro j fuel hfuel hj hctx hfail
    obtain ⟨f, rfl⟩ : ∃ f, fuel = f + 1 := ⟨fuel - 1, by omega⟩
    simp only [Nat.add_zero] at hj
    subst hj
    have he := hfail (n - 1) (Nat.le_refl _) (by omega)
    simp only [doLoop, hctx, he]
    simp [sleepsFrom]
  | succ k ih =>
    intro j fuel hfuel hj hctx hfail
    obtain ⟨f, rfl⟩ : ∃ f, fuel = f + 1 := ⟨fuel - 1, by omega⟩
    have he := hfail j (Nat.le_refl j) (by omega)
    have hne : ¬(j = n - 1) := by omega
    simp only [doLoop, hctx j, he, if_neg hne]
    rw [ih (j + 1) f (by omega) (by omega) hctx
      (fun i h1 h2 => hfail i (by omega) (by omega))]
    simp [sleepsFrom_succ]

theorem doLoop_cancel {T E : Type} (ctx : Nat → Option E) (strategy : Nat → Nat)
    (op : Nat → Except E T) (n : Nat) (errs : Nat → E) (ce : E) :
    ∀ (k j fuel : Nat), k < fuel → j + k < n →
      (∀ i, j ≤ i → i < j + k → ctx i = none ∧ op i = Except.error (errs i)) →
      ctx (j + k) = some ce →
      doLoop ctx strategy op n j fuel = (.ctxErr ce, k, sleepsFrom strategy j k) := by
  intro k
  induction k with
  | zero =>
    intro j fuel hfuel _ _ hcancel
    obtain ⟨f, rfl⟩ : ∃ f, fuel = f + 1 := ⟨fuel - 1, by omega⟩
    simp only [Nat.add_zero] at hcancel
    simp only [doLoop, hcancel]
    simp [sleepsFrom]
  | succ k ih =>
    intro j fuel hfuel hlt hpre hcancel
    obtain ⟨f, rfl⟩ : ∃ f, fuel = f + 1 := ⟨fuel - 1, by omega⟩
    obtain ⟨hc, he⟩ := hpre j (Nat.le_refl j) (by omega)
    have hne : ¬(j = n - 1) := by omega
    simp only [doLoop, hc, he, if_neg hne]
    have hcancel' : ctx (j + 1 + k) = some ce := by
      rw [show j + 1 + k = j + (k + 1) from by omega]; exact hcancel
    rw [ih (j + 1) f (by omega) (by omega)
      (fun i h1 h2 => hpre i (by omega) (by omega)) hcancel']
    simp [sleepsFrom_succ]

theorem doLoop_no_ctxErr {T E : Type} (strategy : Nat → Nat)
    (op : Nat → Except E T) (n : Nat) :
    ∀ (fuel i : Nat) (e : E),
      (doLoop (fun _ => none) strategy op n i fuel).1 ≠ RetryResult.ctxErr e := by
  intro fuel
  induction fuel with
  | zero => intro i e; simp [doLoop]
  | succ f ih =>
    intro i e
    simp only [doLoop]
    match hop : op i with
    | .ok v => simp
    | .error err =>
      by_cases hlast : i = n - 1
      · simp [hlast]
      · simpa [hlast] using ih (i + 1) e

end Retry

namespace Serializers

theorem hexVal_hexDigitLower (d : Nat) (hd : d < 16) :
    hexVal (hexDigitLower d) = some d := by
  interval_cases d <;> rfl

theorem decodeHexPairs_encode :
    ∀ (bs : List Nat), (∀ b ∈ bs, b < 256) →
      decodeHexPairs ((bs.map byteToHex).flatten) = Except.ok bs := by
  intro bs
  induction bs with
  | nil => intro _; rfl
  | cons b rest ih =>
    intro h
    have hb : b < 256 := h b (by simp)
    simp only [List.map_cons, List.flatten_cons, byteToHex, List.cons_append,
      List.nil_append]
    simp only [decodeHexPairs, hexVal_hexDigitLower (b / 16) (by omega),
      hexVal_hexDigitLower (b % 16) (by omega)]
    rw [ih (fun x hx => h x (by simp [hx]))]
    have hbeq : b / 16 * 16 + b % 16 = b := by omega
    simp [hbeq, Except.map]

end Serializers

namespace DBStore

theorem asciiToLower_hexDigitCase (u : Bool) (d : Nat) (hd : d < 16) :
    asciiToLower (hexDigitCase u d) = Serializers.hexDigitLower d := by
  cases u <;> interval_cases d <;> rfl

theorem toNibbles_lt :
    ∀ (bytes : List Nat), (∀ b ∈ bytes, b < 256) → ∀ d ∈ toNibbles bytes, d < 16 := by
  intro bytes
  induction bytes with
  | nil => intro _ d hd; simp [toNibbles] at hd
  | cons b rest ih =>
    intro h d hd
    have hb : b < 256 := h b (by simp)
    simp only [toNibbles, List.map_cons, List.flatten_cons, List.mem_append,
      List.mem_cons] at hd
    rcases hd with (h1 | h1 | h1) | h1
    · omega
    · omega
    · simp at h1
    · exact ih (fun x hx => h x (by simp [hx])) d (by simpa [toNibbles] using h1)

theorem map_asciiToLower_checksumChars (mask : Nat → Bool) :
    ∀ (ds : List Nat) (i : Nat), (∀ d ∈ ds, d < 16) →
      (checksumChars mask i ds).map asciiToLower = ds.map Serializers.hexDigitLower := by
  intro ds
  induction ds with
  | nil => intro i _; rfl
  | cons d rest ih =>
    intro i h
    simp only [checksumChars, List.map_cons]
    rw [asciiToLower_hexDigitCase (mask i) d (h d (by simp)),
      ih (i + 1) (fun x hx => h x (by simp [hx]))]

theorem goToLower_addressString (mask : Nat → Bool) (bytes : List Nat)
    (h : ∀ b ∈ bytes, b < 256) :
    goToLower (addressString mask bytes) = lowerKey bytes := by
  unfold goToLower addressString lowerKey
  simp only [List.map_cons]
  rw [show asciiToLower '0' = '0' from rfl, show asciiToLower 'x' = 'x' from rfl,
    map_asciiToLower_checksumChars mask (toNibbles bytes) 0 (toNibbles_lt bytes h)]

end DBStore

namespace Migrate

theorem runVisits_clean (exec : List Char → Option Nat) :
    ∀ vs : List Visit, (∀ v ∈ vs, goodVisit exec v = true) →
      runVisits exec vs = (none, fileContents vs) := by
  intro vs
  induction vs with
  | nil => intro _; rfl
  | cons v rest ih =>
    intro h
    have hv := h v (by simp)
    have hrest := ih (fun w hw => h w (by simp [hw]))
    cases v with
    | vdir rel =>
      simpa [runVisits, fileContents] using hrest
    | vfile rel c =>
      simp only [goodVisit, Bool.and_eq_true, Bool.not_eq_true', beq_iff_eq] at hv
      simp [runVisits, fileContents, hv.1, hv.2, hrest]

end Migrate

/-- C1: for every `maxAttempts` `n ≥ 1`, every backoff strategy, and every
operation that fails on exactly its first `k` invocations (`k < n`) and
succeeds on invocation `k+1`, `retry.Do` returns the operation's success
value with a nil error, invokes the operation exactly `k+1` times, and
sleeps exactly `k` times — once after each failed attempt, with duration
`strategy.Duration(i)` for failed attempt `i`. -/
theorem c1_do_success_after_k_failures {T E : Type}
    (ctx : Nat → Option E) (strategy : Nat → Nat) (op : Nat → Except E T)
    (n k : Nat) (v : T)
    (hn : 1 ≤ n) (hk : k < n)
    (hctx : ∀ i, ctx i = none)
    (hfail : ∀ i, i < k → ∃ e, op i = Except.error e)
    (hok : op k = Except.ok v) :
    Retry.Do ctx (n : Int) strategy op =
      ⟨Retry.RetryResult.ok v, k + 1, (List.range k).map strategy⟩ := by
  unfold Retry.Do
  rw [if_neg (by omega)]
  have hnt : ((n : Int)).toNat = n := Int.toNat_natCast n
  simp only [hnt]
  rw [Retry.doLoop_ok ctx strategy op n v k 0 n (by omega) (by omega) hctx
    (fun i _ h2 => hfail i (by omega)) (by simpa using hok)]
  simp [Retry.sleepsFrom]

/-- Witness for C1 at `n = 3`, `k = 2`: the operation fails on attempts 0
and 1 and succeeds on attempt 2; `Do` returns 42 after 3 invocations and 2
sleeps of durations 1 and 2. -/
theorem c1_do_success_after_k_failures_witness :
    Retry.Do (E := Nat) (fun _ => none) 3 (fun i => i + 1)
      (fun i => if i < 2 then Except.error i else Except.ok 42) =
      ⟨Retry.RetryResult.ok 42, 3, [1, 2]⟩ := by
  have h := c1_do_success_after_k_failures (fun _ => none) (fun i => i + 1)
    (fun i => if i < 2 then Except.error i else Except.ok 42) 3 2 42
    (by omega) (by omega) (fun _ => rfl)
    (fun i hi => ⟨i, by interval_cases i <;> rfl⟩) rfl
  simpa using h

/-- C4: for every `maxAttempts` `n ≥ 1` and every operation failing on all
`n` invocations, `retry.Do` returns an `ErrFailedPermanently` that records
the attempt count `n` and wraps the error of the final invocation, and
`Unwrap` recovers that last error. -/
theorem c4_do_failed_permanently {T E : Type}
    (ctx : Nat → Option E) (strategy : Nat → Nat) (op : Nat → Except E T)
    (n : Nat) (errs : Nat → E)
    (hn : 1 ≤ n)
    (hctx : ∀ i, ctx i = none)
    (hfail : ∀ i, i < n → op i = Except.error (errs i)) :
    Retry.Do ctx (n : Int) strategy op =
      ⟨Retry.RetryResult.failedPermanently ⟨(n : Int), some (errs (n - 1))⟩,
        n, (List.range (n - 1)).map strategy⟩ ∧
    (Retry.ErrFailedPermanently.mk (n : Int) (some (errs (n - 1)))).Unwrap =
      some (errs (n - 1)) := by
  refine ⟨?_, rfl⟩
  unfold Retry.Do
  rw [if_neg (by omega)]
  have hnt : ((n : Int)).toNat = n := Int.toNat_natCast n
  simp only [hnt]
  rw [Retry.doLoop_allFail ctx strategy op n errs (n - 1) 0 n (by omega) (by omega)
    hctx (fun i _ h2 => hfail i (by omega))]
  have hcnt : n - 1 + 1 = n := by omega
  simp [Retry.sleepsFrom, hcnt]

/-- Witness for C4 at `n = 2` with error codes 10 and 11: the result is the
permanent-failure error carrying attempt count 2 and last error 11, and
`Unwrap` returns 11. -/
theorem c4_do_failed_permanently_witness :
    Retry.Do (T := Nat) (fun _ => none) 2 (fun i => 5 * i)
      (fun i => Except.error (10 + i)) =
      ⟨Retry.RetryResult.failedPermanently ⟨2, some 11⟩, 2, [0]⟩ ∧
    (Retry.ErrFailedPermanently.mk 2 (some 11)).Unwrap = some 11 := by
  have h := c4_do_failed_permanently (T := Nat) (fun _ => none) (fun i => 5 * i)
    (fun i => Except.error (10 + i)) 2 (fun i => 10 + i)
    (by omega) (fun _ => rfl) (fun i _ => rfl)
  simpa using h

/-- C5: for every `maxAttempts` value that is zero or negative, `retry.Do`
and `retry.Do2` fail immediately with the configuration error, invoke the
operation zero times and sleep zero times, for every context and strategy. -/
theorem c5_do_config_error {T U E : Type}
    (ctx : Nat → Option E) (strategy : Nat → Nat) (m : Int)
    (op : Nat → Except E T) (op2 : Nat → Except E (T × U))
    (hm : m ≤ 0) :
    Retry.Do ctx m strategy op = ⟨Retry.RetryResult.configErr m, 0, []⟩ ∧
    Retry.Do2 ctx m strategy op2 = ⟨Retry.RetryResult.configErr m, 0, []⟩ := by
  have hlt : m < 1 := by omega
  exact ⟨by simp [Retry.Do, if_pos hlt], by simp [Retry.Do2, Retry.Do, if_pos hlt]⟩

/-- Witness for C5 at `maxAttempts = -1` (and, for the operations, ones that
would always succeed if ever invoked). -/
theorem c5_do_config_error_witness :
    Retry.Do (E := Nat) (fun _ => none) (-1) (fun _ => 0) (fun _ => Except.ok 7) =
      ⟨Retry.RetryResult.configErr (-1), 0, []⟩ ∧
    Retry.Do2 (E := Nat) (fun _ => none) (-1) (fun _ => 0)
      (fun _ => Except.ok ((7 : Nat), (8 : Nat))) =
      ⟨Retry.RetryResult.configErr (-1), 0, []⟩ := by
  exact c5_do_config_error (fun _ => none) (fun _ => 0) (-1) (fun _ => Except.ok 7)
    (fun _ => Except.ok ((7 : Nat), (8 : Nat))) (by omega)

/-- C6: for every `maxAttempts` `n ≥ 1`, if the context first reports an
error at the check preceding attempt `m < n` (in particular `m = 0`: a
context already cancelled when `Do` is called), `Do` returns the context's
error, the operation is invoked exactly `m` times (the aborted attempt does
not invoke it), and exactly `m` sleeps happen. -/
theorem c6_do_context_cancelled {T E : Type}
    (ctx : Nat → Option E) (strategy : Nat → Nat) (op : Nat → Except E T)
    (n m : Nat) (ce : E) (errs : Nat → E)
    (hn : 1 ≤ n) (hm : m < n)
    (hpre : ∀ i, i < m → ctx i = none ∧ op i = Except.error (errs i))
    (hcancel : ctx m = some ce) :
    Retry.Do ctx (n : Int) strategy op =
      ⟨Retry.RetryResult.ctxErr ce, m, (List.range m).map strategy⟩ := by
  unfold Retry.Do
  rw [if_neg (by omega)]
  have hnt : ((n : Int)).toNat = n := Int.toNat_natCast n
  simp only [hnt]
  rw [Retry.doLoop_cancel ctx strategy op n errs ce m 0 n (by omega) (by omega)
    (fun i _ h2 => hpre i (by omega)) (by simpa using hcancel)]
  simp [Retry.sleepsFrom]

/-- Witness for C6 with a context already cancelled (`m = 0`) at `n = 5`:
the context error 99 is returned with zero invocations and zero sleeps. -/
theorem c6_do_context_cancelled_witness :
    Retry.Do (T := Nat) (fun _ => some 99) 5 (fun i => i)
      (fun _ => Except.ok 1) = ⟨Retry.RetryResult.ctxErr 99, 0, []⟩ := by
  have h := c6_do_context_cancelled (T := Nat) (fun _ => some 99) (fun i => i)
    (fun _ => Except.ok 1) 5 0 99 (fun _ => 0)
    (by omega) (by omega) (fun i hi => absurd hi (by omega)) rfl
  simpa using h

/-- C10: `database.NewDB` hands the retry executor a fresh background
context, not the caller-supplied one: its retry trace is identical for any
two caller contexts, it can never surface a context-cancellation error (for
no error `e` is the result `ctxErr e`), and with an always-failing open
operation it proceeds through all 10 attempts to a permanent failure even
though the caller's context may be long cancelled. -/
theorem c10_newdb_ignores_caller_context {G E : Type}
    (jitter : Nat → Nat) (openOp : Nat → Except E G)
    (ctx₁ ctx₂ : Nat → Option E) (e0 : E) :
    DBConn.NewDB ctx₁ jitter openOp = DBConn.NewDB ctx₂ jitter openOp ∧
    (∀ e, (DBConn.NewDB ctx₁ jitter openOp).result ≠ Retry.RetryResult.ctxErr e) ∧
    DBConn.NewDB (G := G) ctx₁ jitter (fun _ => Except.error e0) =
      ⟨Retry.RetryResult.failedPermanently ⟨10, some e0⟩, 10,
        (List.range 9).map (DBConn.ExponentialStrategyDuration 1000 20000 250 jitter)⟩ := by
  refine ⟨rfl, ?_, ?_⟩
  · intro e
    unfold DBConn.NewDB Retry.Do
    rw [if_neg (by omega)]
    exact Retry.doLoop_no_ctxErr _ openOp _ _ _ e
  · unfold DBConn.NewDB Retry.Do
    rw [if_neg (by omega)]
    rw [show Int.toNat 10 = 10 from rfl]
    rw [Retry.doLoop_allFail (fun _ => none)
      (DBConn.ExponentialStrategyDuration 1000 20000 250 jitter)
      (fun _ => Except.error e0) 10 (fun _ => e0) 9 0 10 (by omega) (by omega)
      (fun _ => rfl) (fun i _ _ => rfl)]
    simp [Retry.sleepsFrom]

/-- C2: decoding the codec's encoding of an in-range fixed-width binary
value `v` (one whose `Bytes()` raw form round-trips through `SetBytes`)
yields `v` again: `Scan` applied to the string produced by `Value`
reconstructs an equal field value.  A nil/absent field value encodes to an
absent (nil) storage value with no error, and a nil database value decodes
to the untouched zero/absent field with no error. -/
theorem c2_codec_roundtrip (env : Serializers.TypeEnv) (u : String) (bs : List Nat)
    (hsb : env.ptrHasSetBytes u = true)
    (hbyt : env.hasBytes u = true)
    (hrange : ∀ b ∈ bs, b < 256)
    (hrt : env.setBytesResult u bs = bs) :
    Serializers.Value env (Serializers.GoType.named u) (Serializers.FVal.baseV u bs) =
      Except.ok (some (Serializers.hexutilEncode bs)) ∧
    Serializers.Scan env (Serializers.GoType.named u)
      (some (Serializers.DBValue.str (Serializers.hexutilEncode bs))) =
      Except.ok (some (Serializers.FVal.baseV u bs)) ∧
    (∀ ft, Serializers.Value env (Serializers.GoType.ptr ft) Serializers.FVal.nilP =
      Except.ok none) ∧
    (∀ ft, Serializers.Value env ft Serializers.FVal.absent = Except.ok none) ∧
    (∀ ft, Serializers.Scan env ft none = Except.ok none) := by
  refine ⟨?_, ?_, ?_, ?_, ?_⟩
  · simp [Serializers.Value, hbyt]
  · simp only [Serializers.Scan, Serializers.hexutilEncode, Serializers.hexutilDecode,
      Serializers.decodeHexPairs_encode bs hrange, Serializers.GoType.kind]
    simp [hsb, hrt]
  · intro ft; simp [Serializers.Value, Serializers.GoType.kind]
  · intro ft; simp [Serializers.Value]
  · intro ft; simp [Serializers.Scan]

/-- Witness for C2 at the concrete `common.Address` capability environment
and the 20-byte address used by the scanner. -/
theorem c2_codec_roundtrip_witness :
    Serializers.Value Serializers.addressEnv (Serializers.GoType.named "common.Address")
      (Serializers.FVal.baseV "common.Address" Serializers.addrBytes20) =
      Except.ok (some (Serializers.hexutilEncode Serializers.addrBytes20)) ∧
    Serializers.Scan Serializers.addressEnv (Serializers.GoType.named "common.Address")
      (some (Serializers.DBValue.str (Serializers.hexutilEncode Serializers.addrBytes20))) =
      Except.ok (some (Serializers.FVal.baseV "common.Address" Serializers.addrBytes20)) ∧
    (∀ ft, Serializers.Value Serializers.addressEnv (Serializers.GoType.ptr ft)
      Serializers.FVal.nilP = Except.ok none) ∧
    (∀ ft, Serializers.Value Serializers.addressEnv ft Serializers.FVal.absent =
      Except.ok none) ∧
    (∀ ft, Serializers.Scan Serializers.addressEnv ft none = Except.ok none) :=
  c2_codec_roundtrip Serializers.addressEnv "common.Address" Serializers.addrBytes20
    (by decide) (by decide) (by decide) (by decide)

/-- C3 records a divergence: on a doubly-indirected target type
(`**common.Address`) with a well-formed hex stored value, `Scan` does not
fail with the unsupported-depth ("double pointers") error the claim names —
it falls through to the capability-mismatch error.  The guard at
bytes.go:70 inspects `nestedField.Elem().Kind()` on the freshly allocated
(hence nil) pointer value; `reflect` returns the zero `Value` (kind
`Invalid`) for `Elem` of a nil pointer, so the depth check can never fire,
and the pointer-to-pointer interface (whose method set is empty) is then
rejected by the `SetBytes` assertion instead. -/
theorem c3_scan_double_pointer_divergence :
    Serializers.Scan Serializers.addressEnv
      (Serializers.GoType.ptr (Serializers.GoType.ptr
        (Serializers.GoType.named "common.Address")))
      (some (Serializers.DBValue.str ['0', 'x', '0', '1'])) =
      Except.error Serializers.ScanError.noSetBytes ∧
    Serializers.Scan Serializers.addressEnv
      (Serializers.GoType.ptr (Serializers.GoType.ptr
        (Serializers.GoType.named "common.Address")))
      (some (Serializers.DBValue.str ['0', 'x', '0', '1'])) ≠
      Except.error Serializers.ScanError.doublePointer := by
  have h1 : Serializers.Scan Serializers.addressEnv
      (Serializers.GoType.ptr (Serializers.GoType.ptr
        (Serializers.GoType.named "common.Address")))
      (some (Serializers.DBValue.str ['0', 'x', '0', '1'])) =
      Except.error Serializers.ScanError.noSetBytes := rfl
  refine ⟨h1, ?_⟩
  rw [h1]
  intro hc
  simp at hc

/-- C7: `QueryHotWalletInfo` and `QueryColdWalletInfo` return the first row
whose classification matches (`address_type` 1 and 2 respectively); with no
such row they return `(nil, nil)` — success with an absent value — while
any storage failure other than not-found is returned as a non-nil error. -/
theorem c7_wallet_queries (rows : List DBStore.AddressRow) :
    DBStore.QueryHotWalletInfo (DBStore.Gorm.healthy rows) =
      Except.ok (rows.find? (fun r => r.addressType == 1)) ∧
    DBStore.QueryColdWalletInfo (DBStore.Gorm.healthy rows) =
      Except.ok (rows.find? (fun r => r.addressType == 2)) ∧
    (∀ c, DBStore.QueryHotWalletInfo (DBStore.Gorm.failing (DBStore.GormErr.otherErr c)) =
      Except.error (DBStore.GormErr.otherErr c)) ∧
    (∀ c, DBStore.QueryColdWalletInfo (DBStore.Gorm.failing (DBStore.GormErr.otherErr c)) =
      Except.error (DBStore.GormErr.otherErr c)) ∧
    DBStore.QueryHotWalletInfo (DBStore.Gorm.failing DBStore.GormErr.recordNotFound) =
      Except.ok none ∧
    DBStore.QueryColdWalletInfo (DBStore.Gorm.failing DBStore.GormErr.recordNotFound) =
      Except.ok none := by
  refine ⟨?_, ?_, fun c => rfl, fun c => rfl, rfl, rfl⟩
  · unfold DBStore.QueryHotWalletInfo DBStore.Gorm.take
    cases h : rows.find? (fun r => r.addressType == 1) <;> simp [h]
  · unfold DBStore.QueryColdWalletInfo DBStore.Gorm.take
    cases h : rows.find? (fun r => r.addressType == 2) <;> simp [h]

/-- C8: `AddressExist` normalizes the queried address to its lower-case
textual form before lookup — the result is independent of the (Keccak
checksum) casing of `address.String()`, and the lookup key is the canonical
lower-case hex form — and it returns `(false, 0)` both when no row matches
and when the query fails for any other reason, while a match returns
`(true, class)` with the row's `address_type`. -/
theorem c8_address_exist_normalized (rows : List DBStore.AddressRow)
    (mask₁ mask₂ : Nat → Bool) (addr : List Nat)
    (hrange : ∀ b ∈ addr, b < 256) :
    (∀ g, DBStore.AddressExist g mask₁ addr = DBStore.AddressExist g mask₂ addr) ∧
    DBStore.AddressExist (DBStore.Gorm.healthy rows) mask₁ addr =
      (match rows.find? (fun r => r.address == DBStore.lowerKey addr) with
       | some r => (true, r.addressType)
       | none => (false, 0)) ∧
    (∀ c, DBStore.AddressExist (DBStore.Gorm.failing (DBStore.GormErr.otherErr c))
      mask₁ addr = (false, 0)) ∧
    DBStore.AddressExist (DBStore.Gorm.failing DBStore.GormErr.recordNotFound)
      mask₁ addr = (false, 0) := by
  have hkey : ∀ mask : Nat → Bool,
      DBStore.goToLower (DBStore.addressString mask addr) = DBStore.lowerKey addr :=
    fun mask => DBStore.goToLower_addressString mask addr hrange
  refine ⟨?_, ?_, fun c => rfl, rfl⟩
  · intro g
    unfold DBStore.AddressExist
    rw [hkey mask₁, hkey mask₂]
  · unfold DBStore.AddressExist DBStore.Gorm.first
    rw [hkey mask₁]
    cases h : rows.find? (fun r => r.address == DBStore.lowerKey addr) <;> simp [h]

/-- Witness for C8: a table holding the lower-case stored form of the
20-byte scanner address with classification 1; the upper-case and the
lower-case checksum rendering of the query both return `(true, 1)`, a
failing query and a not-found both return `(false, 0)`. -/
theorem c8_address_exist_normalized_witness :
    DBStore.AddressExist
      (DBStore.Gorm.healthy
        [⟨"guid-1", DBStore.lowerKey Serializers.addrBytes20, 1, "pk", 1⟩])
      (fun _ => true) Serializers.addrBytes20 = (true, 1) ∧
    DBStore.AddressExist
      (DBStore.Gorm.healthy
        [⟨"guid-1", DBStore.lowerKey Serializers.addrBytes20, 1, "pk", 1⟩])
      (fun _ => false) Serializers.addrBytes20 = (true, 1) ∧
    DBStore.AddressExist (DBStore.Gorm.failing (DBStore.GormErr.otherErr 3))
      (fun _ => true) Serializers.addrBytes20 = (false, 0) ∧
    DBStore.AddressExist (DBStore.Gorm.failing DBStore.GormErr.recordNotFound)
      (fun _ => true) Serializers.addrBytes20 = (false, 0) := by
  have h := c8_address_exist_normalized
    [⟨"guid-1", DBStore.lowerKey Serializers.addrBytes20, 1, "pk", 1⟩]
    (fun _ => true) (fun _ => false) Serializers.addrBytes20 (by decide)
  obtain ⟨hm, hh, ho, hn⟩ := h
  refine ⟨?_, ?_, ho 3, hn⟩
  · rw [hh]; decide
  · rw [← hm (DBStore.Gorm.healthy
      [⟨"guid-1", DBStore.lowerKey Serializers.addrBytes20, 1, "pk", 1⟩]), hh]
    decide

/-- C9: `ExecuteSQLMigration` visits entries in filesystem-walk order,
skips every directory entry, rejects a path containing `..` (a traversal
attempt) before the file is read or executed, executes every remaining
regular file's full content as a single script in walk order, and aborts on
the first error. -/
theorem c9_execute_sql_migration (exec : List Char → Option Nat)
    (kids : List Migrate.FSEntry)
    (hgood : ∀ v ∈ Migrate.walkList [] kids, Migrate.goodVisit exec v = true) :
    Migrate.ExecuteSQLMigration exec kids =
      (none, Migrate.fileContents (Migrate.walkList [] kids)) ∧
    (∀ rel c rest, Migrate.hasDotDot (Migrate.joinPath rel) = true →
      Migrate.runVisits exec (Migrate.Visit.vfile rel c :: rest) =
        (some Migrate.MigErr.invalidPath, [])) ∧
    (∀ rel rest, Migrate.runVisits exec (Migrate.Visit.vdir rel :: rest) =
      Migrate.runVisits exec rest) ∧
    (∀ rel c rest code, Migrate.hasDotDot (Migrate.joinPath rel) = false →
      exec c = some code →
      Migrate.runVisits exec (Migrate.Visit.vfile rel c :: rest) =
        (some (Migrate.MigErr.execFail code), [])) := by
  refine ⟨?_, ?_, fun rel rest => rfl, ?_⟩
  · unfold Migrate.ExecuteSQLMigration
    exact Migrate.runVisits_clean exec (Migrate.walkList [] kids) hgood
  · intro rel c rest h
    simp [Migrate.runVisits, h]
  · intro rel c rest code h1 h2
    simp [Migrate.runVisits, h1, h2]

/-- Witness for C9: a migrations folder with `a.sql` and a subdirectory
`sub` holding `b.sql` executes both scripts' full text in walk order with
no error, and a file visit whose relative path starts with a `..` segment
is rejected with the invalid-path error and nothing executed. -/
theorem c9_execute_sql_migration_witness :
    Migrate.ExecuteSQLMigration (fun _ => none)
      [Migrate.FSEntry.file "a.sql".toList "CREATE TABLE a;".toList,
       Migrate.FSEntry.dir "sub".toList
         [Migrate.FSEntry.file "b.sql".toList "SELECT 1;".toList]] =
      (none, ["CREATE TABLE a;".toList, "SELECT 1;".toList]) ∧
    Migrate.runVisits (fun _ => none)
      [Migrate.Visit.vfile ["..".toList, "evil.sql".toList] "DROP TABLE a;".toList] =
      (some Migrate.MigErr.invalidPath, []) := by
  have h := c9_execute_sql_migration (fun _ => none)
    [Migrate.FSEntry.file "a.sql".toList "CREATE TABLE a;".toList,
     Migrate.FSEntry.dir "sub".toList
       [Migrate.FSEntry.file "b.sql".toList "SELECT 1;".toList]]
    (by decide)
  refine ⟨?_, h.2.1 ["..".toList, "evil.sql".toList] "DROP TABLE a;".toList [] (by decide)⟩
  rw [h.1]
  decide
